import Mathlib

/-! Verification of the SQuAD example-preprocessing routine (`SquadExample.preprocess`)
from the notebook `text-extraction-with-BERT.ipynb`.

Text is modelled as `List Char` (Python `str`).  The external word-piece
tokenizer is a parameter `tok : List Char → Encoding` returning token ids and
character offset pairs, mirroring `tokenizer.encode(text).ids / .offsets`.
Python list indexing that can raise `IndexError` is modelled with `Option`;
the whole of `preprocess` therefore returns `Option SquadExample`, `none`
standing for an uncaught exception.

The embedding follows the notebook source faithfully, including the fact that
in the source the emptiness check of `ans_token_idx` and everything after it
are indented inside the `for idx, (start, end) in enumerate(...)` loop.
-/

/-- Whitespace test used by Python's `str.split()` (ASCII whitespace suffices
for the texts considered here). -/
def isPySpace (c : Char) : Bool :=
  c = ' ' || c = '\t' || c = '\n' || c = '\r' || c = Char.ofNat 11 || c = Char.ofNat 12

/-- Helper for `pySplit`: accumulates the current chunk (reversed). -/
def pySplitGo : List Char → List Char → List (List Char)
  | [], cur => if cur.isEmpty then [] else [cur.reverse]
  | c :: rest, cur =>
    if isPySpace c then
      if cur.isEmpty then pySplitGo rest [] else cur.reverse :: pySplitGo rest []
    else pySplitGo rest (c :: cur)

/-- Python `s.split()`: split on runs of whitespace, discarding empty chunks. -/
def pySplit (s : List Char) : List (List Char) := pySplitGo s []

/-- Python `" ".join(s.split())`: collapse whitespace runs to single spaces. -/
def normalizeWs (s : List Char) : List Char := List.intercalate [' '] (pySplit s)

/-- Result of `tokenizer.encode`: token ids and character offset pairs. -/
structure Encoding where
  ids : List Nat
  offsets : List (Nat × Nat)
deriving DecidableEq

/-- The `SquadExample` object.  The fields set by `__init__` come first; the
derived fields assigned by `preprocess` are `Option`-valued (`none` models
"attribute not assigned"). -/
structure SquadExample where
  question : List Char
  context : List Char
  start_char_idx : Int
  answer_text : List Char
  all_answers : List (List Char)
  skip : Bool
  input_ids : Option (List Nat)
  token_type_ids : Option (List Nat)
  attention_mask : Option (List Nat)
  start_token_idx : Option Nat
  end_token_idx : Option Nat
  context_token_to_char : Option (List (Nat × Nat))
deriving DecidableEq

/-- Constructor `SquadExample.__init__`: stores the raw fields, sets `skip = False`,
leaves every derived attribute unassigned. -/
def SquadExample.init (question context : List Char) (start_char_idx : Int)
    (answer_text : List Char) (all_answers : List (List Char)) : SquadExample :=
  { question := question
    context := context
    start_char_idx := start_char_idx
    answer_text := answer_text
    all_answers := all_answers
    skip := false
    input_ids := none
    token_type_ids := none
    attention_mask := none
    start_token_idx := none
    end_token_idx := none
    context_token_to_char := none }

/-- Python `l[idx] = v` on a list of length `len l`: nonnegative indices must
be `< len`, negative indices wrap (`l[-k]` is `l[len - k]`), anything else
raises `IndexError` (modelled as `none`). -/
def pySetIdx (l : List Nat) (idx : Int) (v : Nat) : Option (List Nat) :=
  if 0 ≤ idx then
    if idx < (l.length : Int) then some (l.set idx.toNat v) else none
  else
    if -(l.length : Int) ≤ idx then some (l.set (idx + (l.length : Int)).toNat v) else none

/-- The loop `for idx in range(a, ...): is_char_in_ans[idx] = 1`, with the
number of remaining iterations as fuel. -/
def markRangeGo : Nat → List Nat → Int → Option (List Nat)
  | 0, l, _ => some l
  | n + 1, l, a =>
    match pySetIdx l a 1 with
    | none => none
    | some l2 => markRangeGo n l2 (a + 1)

/-- Marking loop `for idx in range(start_char_idx, end_char_idx): is_char_in_ans[idx] = 1`. -/
def markAnswerChars (l : List Nat) (a b : Int) : Option (List Nat) :=
  markRangeGo (b - a).toNat l a

/-- Python slice `l[s:e]` for nonnegative bounds (out-of-range bounds clamp). -/
def pySlice (l : List Nat) (s e : Nat) : List Nat := (l.drop s).take (e - s)

/-- The unpadded `input_ids` built in the loop body:
`tokenized_context.ids + tokenized_question.ids[1:]`. -/
def loopInputIds (tok : List Char → Encoding) (question : List Char)
    (ctxEnc : Encoding) : List Nat :=
  ctxEnc.ids ++ (tok question).ids.drop 1

/-- The unpadded `token_type_ids`: zeros over the context ids, ones over the
question ids with the leading special token dropped. -/
def loopTokenTypeIds (tok : List Char → Encoding) (question : List Char)
    (ctxEnc : Encoding) : List Nat :=
  List.replicate ctxEnc.ids.length 0 ++ List.replicate ((tok question).ids.drop 1).length 1

/-- The unpadded `attention_mask`: ones over the whole unpadded input. -/
def loopAttentionMask (tok : List Char → Encoding) (question : List Char)
    (ctxEnc : Encoding) : List Nat :=
  List.replicate (loopInputIds tok question ctxEnc).length 1

/-- Quantity `padding_length = max_len - len(input_ids)` (a Python int, may be negative). -/
def loopPad (tok : List Char → Encoding) (max_len : Nat) (question : List Char)
    (ctxEnc : Encoding) : Int :=
  (max_len : Int) - ((loopInputIds tok question ctxEnc).length : Int)

/-- Sequence `input_ids` after padding with zeros (no padding when `padding_length ≤ 0`). -/
def paddedIds (tok : List Char → Encoding) (max_len : Nat) (question : List Char)
    (ctxEnc : Encoding) : List Nat :=
  loopInputIds tok question ctxEnc ++ List.replicate (loopPad tok max_len question ctxEnc).toNat 0

/-- Sequence `token_type_ids` after padding with zeros. -/
def paddedTokenTypeIds (tok : List Char → Encoding) (max_len : Nat) (question : List Char)
    (ctxEnc : Encoding) : List Nat :=
  loopTokenTypeIds tok question ctxEnc ++ List.replicate (loopPad tok max_len question ctxEnc).toNat 0

/-- Sequence `attention_mask` after padding with zeros. -/
def paddedAttentionMask (tok : List Char → Encoding) (max_len : Nat) (question : List Char)
    (ctxEnc : Encoding) : List Nat :=
  loopAttentionMask tok question ctxEnc ++ List.replicate (loopPad tok max_len question ctxEnc).toNat 0

/-- The block of attribute assignments `self.input_ids = ...` through
`self.context_token_to_char = ...` at the end of the loop body. -/
def setDerived (e : SquadExample) (ii tti am : List Nat) (s t : Nat)
    (offs : List (Nat × Nat)) : SquadExample :=
  { e with
    input_ids := some ii
    token_type_ids := some tti
    attention_mask := some am
    start_token_idx := some s
    end_token_idx := some t
    context_token_to_char := some offs }

/-- The `for idx, (start, end) in enumerate(tokenized_context.offsets)` loop of
`SquadExample.preprocess`, exactly as indented in the notebook: the emptiness
check of `ans_token_idx`, the construction of the encoder inputs, the padding
logic and the attribute assignments are all inside the loop body. -/
def ansLoop (tok : List Char → Encoding) (max_len : Nat) (question : List Char)
    (ctxEnc : Encoding) (is_char_in_ans : List Nat) :
    List (Nat × Nat) → Nat → List Nat → SquadExample → SquadExample
  | [], _, _, e => e
  | (start, stop) :: rest, idx, acc, e =>
    let ans_token_idx := if 0 < (pySlice is_char_in_ans start stop).sum then acc ++ [idx] else acc
    if ans_token_idx.isEmpty then { e with skip := true }
    else
      let padding_length := loopPad tok max_len question ctxEnc
      if 0 < padding_length then
        ansLoop tok max_len question ctxEnc is_char_in_ans rest (idx + 1) ans_token_idx
          (setDerived e (paddedIds tok max_len question ctxEnc)
            (paddedTokenTypeIds tok max_len question ctxEnc)
            (paddedAttentionMask tok max_len question ctxEnc)
            (ans_token_idx.headD 0) (ans_token_idx.getLastD 0) ctxEnc.offsets)
      else if padding_length < 0 then { e with skip := true }
      else
        ansLoop tok max_len question ctxEnc is_char_in_ans rest (idx + 1) ans_token_idx
          (setDerived e (loopInputIds tok question ctxEnc)
            (loopTokenTypeIds tok question ctxEnc)
            (loopAttentionMask tok question ctxEnc)
            (ans_token_idx.headD 0) (ans_token_idx.getLastD 0) ctxEnc.offsets)

/-- Method `SquadExample.preprocess`.  Result `none` models an uncaught `IndexError` from
the character-marking loop; `some e2` models normal return with `self = e2`. -/
def SquadExample.preprocess (tok : List Char → Encoding) (max_len : Nat)
    (self : SquadExample) : Option SquadExample :=
  let context := normalizeWs self.context
  let question := normalizeWs self.question
  let answer := normalizeWs self.answer_text
  let start_char_idx := self.start_char_idx
  let end_char_idx : Int := start_char_idx + (answer.length : Int)
  if (context.length : Int) ≤ end_char_idx then some { self with skip := true }
  else
    match markAnswerChars (List.replicate context.length 0) start_char_idx end_char_idx with
    | none => none
    | some is_char_in_ans =>
      let tokenized_context := tok context
      some (ansLoop tok max_len question tokenized_context is_char_in_ans
        tokenized_context.offsets 0 [] self)

/-- The notebook's module-level constant `max_len = 384`. -/
def notebookMaxLen : Nat := 384

/-- A token `(char_start, char_end)` offset pair contains at least one
character of the half-open character interval `[a, b)` — the spec's notion of
an "answer token". -/
def overlapsAnswer (a b : Int) (off : Nat × Nat) : Bool :=
  decide (max a (off.1 : Int) < min b (off.2 : Int))

/-- Modelled from the spec's words: collect the indices of the answer tokens
in order ("the token is an answer token if any character in its span is
marked; collect answer-token indices in order"). -/
def answerTokenIdxsGo (a b : Int) : List (Nat × Nat) → Nat → List Nat
  | [], _ => []
  | off :: rest, idx =>
    (if overlapsAnswer a b off then [idx] else []) ++ answerTokenIdxsGo a b rest (idx + 1)

/-- The indices of the tokens whose spans overlap `[a, b)`, in order. -/
def answerTokenIdxs (offs : List (Nat × Nat)) (a b : Int) : List Nat :=
  answerTokenIdxsGo a b offs 0

/-- The code's per-token test, collected along the offset list: the indices
appended to `ans_token_idx` by the loop. -/
def codeAnsTokenIdx (is_char_in_ans : List Nat) : List (Nat × Nat) → Nat → List Nat
  | [], _ => []
  | (start, stop) :: rest, idx =>
    (if 0 < (pySlice is_char_in_ans start stop).sum then [idx] else []) ++
      codeAnsTokenIdx is_char_in_ans rest (idx + 1)

/-! Section: List helper lemmas -/

theorem getD_drop_zero (l : List Nat) (s j : Nat) :
    (l.drop s).getD j 0 = l.getD (s + j) 0 := by
  induction s generalizing l with
  | zero => simp
  | succ n ih =>
    cases l with
    | nil => simp
    | cons x xs =>
      have h1 : n + 1 + j = (n + j) + 1 := by omega
      rw [List.drop_succ_cons, ih xs, h1, List.getD_cons_succ]

theorem take_sum_pos_iff (l : List Nat) (n : Nat) :
    0 < (l.take n).sum ↔ ∃ i, i < n ∧ i < l.length ∧ 0 < l.getD i 0 := by
  induction l generalizing n with
  | nil => simp
  | cons x xs ih =>
    cases n with
    | zero => simp
    | succ m =>
      simp only [List.take_succ_cons, List.sum_cons, List.length_cons]
      constructor
      · intro h
        by_cases hx : 0 < x
        · exact ⟨0, by omega, by omega, by simpa using hx⟩
        · have hxs : 0 < (xs.take m).sum := by omega
          obtain ⟨i, h1, h2, h3⟩ := (ih m).mp hxs
          exact ⟨i + 1, by omega, by omega, by simpa using h3⟩
      · rintro ⟨i, h1, h2, h3⟩
        cases i with
        | zero => simp only [List.getD_cons_zero] at h3; omega
        | succ j =>
          simp only [List.getD_cons_succ] at h3
          have := (ih m).mpr ⟨j, by omega, by omega, h3⟩
          omega

theorem pySlice_sum_pos_iff (l : List Nat) (s t : Nat) :
    0 < (pySlice l s t).sum ↔ ∃ i, s ≤ i ∧ i < t ∧ i < l.length ∧ 0 < l.getD i 0 := by
  unfold pySlice
  rw [take_sum_pos_iff]
  constructor
  · rintro ⟨j, h1, h2, h3⟩
    rw [getD_drop_zero] at h3
    rw [List.length_drop] at h2
    exact ⟨s + j, by omega, by omega, by omega, h3⟩
  · rintro ⟨i, h1, h2, h3, h4⟩
    refine ⟨i - s, by omega, ?_, ?_⟩
    · rw [List.length_drop]; omega
    · rw [getD_drop_zero]
      have h5 : s + (i - s) = i := by omega
      rw [h5]; exact h4

theorem getD_set_self (l : List Nat) (k v : Nat) (hk : k < l.length) :
    (l.set k v).getD k 0 = v := by
  simp [List.getD_eq_getElem?_getD, List.getElem?_set, hk]

theorem getD_set_other (l : List Nat) (k i v : Nat) (h : k ≠ i) :
    (l.set k v).getD i 0 = l.getD i 0 := by
  simp [List.getD_eq_getElem?_getD, List.getElem?_set, h]

theorem getD_replicate_zero (n i : Nat) : (List.replicate n 0).getD i 0 = 0 := by
  by_cases h : i < n
  · simp [List.getD_eq_getElem?_getD, List.getElem?_replicate, h]
  · simp [List.getD_eq_getElem?_getD, List.getElem?_replicate, h]

/-! Section: Characterization of the character-marking loop -/

theorem markRangeGo_spec (n : Nat) : ∀ (l : List Nat) (a : Int), 0 ≤ a →
    a + (n : Int) ≤ (l.length : Int) →
    ∃ m, markRangeGo n l a = some m ∧ m.length = l.length ∧
      ∀ i : Nat, m.getD i 0 =
        if a ≤ (i : Int) ∧ (i : Int) < a + (n : Int) then 1 else l.getD i 0 := by
  induction n with
  | zero =>
    intro l a _ _
    exact ⟨l, rfl, rfl, fun i => by rw [if_neg (by omega)]⟩
  | succ k ih =>
    intro l a ha hle
    have halen : a < (l.length : Int) := by omega
    have hset : pySetIdx l a 1 = some (l.set a.toNat 1) := by
      unfold pySetIdx
      rw [if_pos ha, if_pos halen]
    obtain ⟨m, hm, hlen, hget⟩ := ih (l.set a.toNat 1) (a + 1) (by omega)
      (by rw [List.length_set]; omega)
    rw [List.length_set] at hlen
    refine ⟨m, ?_, hlen, ?_⟩
    · simp only [markRangeGo, hset]
      exact hm
    · intro i
      rw [hget i]
      by_cases hia : (i : Int) = a
      · have h1 : i = a.toNat := by omega
        rw [if_neg (by omega), if_pos (by omega), h1]
        exact getD_set_self l a.toNat 1 (by omega)
      · by_cases hc : a + 1 ≤ (i : Int) ∧ (i : Int) < a + 1 + (k : Int)
        · rw [if_pos hc, if_pos (by omega)]
        · rw [if_neg hc, if_neg (by omega)]
          exact getD_set_other l a.toNat i 1 (by omega)

theorem markAnswerChars_spec (len : Nat) (a b : Int) (ha : 0 ≤ a) (hb : b ≤ (len : Int)) :
    ∃ m, markAnswerChars (List.replicate len 0) a b = some m ∧ m.length = len ∧
      ∀ i : Nat, m.getD i 0 = if a ≤ (i : Int) ∧ (i : Int) < b then 1 else 0 := by
  unfold markAnswerChars
  by_cases hab : b ≤ a
  · have hfuel : (b - a).toNat = 0 := by omega
    rw [hfuel]
    refine ⟨List.replicate len 0, rfl, List.length_replicate len 0, ?_⟩
    intro i
    rw [if_neg (by omega)]
    exact getD_replicate_zero len i
  · obtain ⟨m, hm, hlen, hget⟩ := markRangeGo_spec (b - a).toNat (List.replicate len 0) a ha
      (by rw [List.length_replicate]; omega)
    rw [List.length_replicate] at hlen
    refine ⟨m, hm, hlen, ?_⟩
    intro i
    have key := hget i
    by_cases hc : a ≤ (i : Int) ∧ (i : Int) < b
    · rw [if_pos (by omega)] at key
      rw [if_pos hc]
      exact key
    · rw [if_neg (by omega)] at key
      rw [if_neg hc, key]
      exact getD_replicate_zero len i

theorem markRangeGo_isSome (n : Nat) : ∀ (l : List Nat) (a : Int),
    -(l.length : Int) ≤ a → a + (n : Int) ≤ (l.length : Int) →
    (markRangeGo n l a).isSome := by
  induction n with
  | zero => intro l a _ _; simp [markRangeGo]
  | succ k ih =>
    intro l a hlo hhi
    have hstep : ∃ l2, pySetIdx l a 1 = some l2 ∧ l2.length = l.length := by
      unfold pySetIdx
      by_cases h0 : 0 ≤ a
      · rw [if_pos h0, if_pos (by omega)]
        exact ⟨_, rfl, List.length_set l _ _⟩
      · rw [if_neg h0, if_pos (by omega)]
        exact ⟨_, rfl, List.length_set l _ _⟩
    obtain ⟨l2, hl2, hlen⟩ := hstep
    simp only [markRangeGo, hl2]
    have hlen2 : (l2.length : Int) = (l.length : Int) := by exact_mod_cast congrArg Nat.cast hlen
    exact ih l2 (a + 1) (by omega) (by omega)

/-! Section: Equivalence of the code's slice test with the spec's overlap test -/

theorem slice_test_iff (m : List Nat) (len : Nat) (a b : Int)
    (hlen : m.length = len)
    (hget : ∀ i : Nat, m.getD i 0 = if a ≤ (i : Int) ∧ (i : Int) < b then 1 else 0)
    (ha : 0 ≤ a) (hb : b ≤ (len : Int)) (s t : Nat) :
    (0 < (pySlice m s t).sum) ↔ (overlapsAnswer a b (s, t) = true) := by
  rw [pySlice_sum_pos_iff]
  unfold overlapsAnswer
  simp only [decide_eq_true_eq, max_lt_iff, lt_min_iff]
  constructor
  · rintro ⟨i, h1, h2, h3, h4⟩
    have key := hget i
    by_cases hc : a ≤ (i : Int) ∧ (i : Int) < b
    · refine ⟨⟨?_, ?_⟩, ?_, ?_⟩ <;> omega
    · rw [if_neg hc] at key
      omega
  · rintro ⟨⟨hab, hsb⟩, hat, hst⟩
    have hc0 : 0 ≤ max a (s : Int) := le_trans ha (le_max_left _ _)
    have hca : a ≤ max a (s : Int) := le_max_left _ _
    have hcs : (s : Int) ≤ max a (s : Int) := le_max_right _ _
    have hcb : max a (s : Int) < b := max_lt hab hsb
    have hct : max a (s : Int) < (t : Int) := max_lt hat hst
    refine ⟨(max a (s : Int)).toNat, by omega, by omega, by omega, ?_⟩
    rw [hget, if_pos (by omega)]
    omega

/-- All spec-side answer-token lists are empty when no token overlaps. -/
theorem answerTokenIdxsGo_eq_nil (a b : Int) :
    ∀ (offs : List (Nat × Nat)) (idx : Nat),
      (∀ off ∈ offs, overlapsAnswer a b off = false) →
      answerTokenIdxsGo a b offs idx = [] := by
  intro offs
  induction offs with
  | nil => intro idx _; rfl
  | cons off rest ih =>
    intro idx hall
    simp only [answerTokenIdxsGo]
    rw [if_neg (by simp [hall off (by simp)]), ih (idx + 1) (fun o ho => hall o (by simp [ho]))]
    rfl

/-- The indices collected by the loop's per-token test agree with the
spec-side answer-token indices, over a correctly marked character mask. -/
theorem codeAnsTokenIdx_eq_spec (m : List Nat) (len : Nat) (a b : Int)
    (hlen : m.length = len)
    (hget : ∀ i : Nat, m.getD i 0 = if a ≤ (i : Int) ∧ (i : Int) < b then 1 else 0)
    (ha : 0 ≤ a) (hb : b ≤ (len : Int)) :
    ∀ (offs : List (Nat × Nat)) (idx : Nat),
      codeAnsTokenIdx m offs idx = answerTokenIdxsGo a b offs idx := by
  intro offs
  induction offs with
  | nil => intro idx; rfl
  | cons off rest ih =>
    intro idx
    obtain ⟨s, t⟩ := off
    have htest := slice_test_iff m len a b hlen hget ha hb s t
    simp only [codeAnsTokenIdx, answerTokenIdxsGo]
    by_cases h : 0 < (pySlice m s t).sum
    · rw [if_pos h, if_pos (htest.mp h), ih (idx + 1)]
    · rw [if_neg h, if_neg (fun hh => h (htest.mpr hh)), ih (idx + 1)]

/-! Section: Structure of the token loop -/

theorem ansLoop_nil (tok : List Char → Encoding) (ml : Nat) (q : List Char)
    (ctxEnc : Encoding) (mask : List Nat) (idx : Nat) (acc : List Nat) (e : SquadExample) :
    ansLoop tok ml q ctxEnc mask [] idx acc e = e := rfl

theorem setDerived_setDerived (e : SquadExample) (a1 b1 c1 : List Nat) (s1 t1 : Nat)
    (o1 : List (Nat × Nat)) (a2 b2 c2 : List Nat) (s2 t2 : Nat) (o2 : List (Nat × Nat)) :
    setDerived (setDerived e a1 b1 c1 s1 t1 o1) a2 b2 c2 s2 t2 o2 =
      setDerived e a2 b2 c2 s2 t2 o2 := rfl

theorem paddedIds_of_zero (tok : List Char → Encoding) (ml : Nat) (q : List Char)
    (ctxEnc : Encoding) (h : loopPad tok ml q ctxEnc = 0) :
    paddedIds tok ml q ctxEnc = loopInputIds tok q ctxEnc := by
  unfold paddedIds
  rw [h]
  simp

theorem paddedTokenTypeIds_of_zero (tok : List Char → Encoding) (ml : Nat) (q : List Char)
    (ctxEnc : Encoding) (h : loopPad tok ml q ctxEnc = 0) :
    paddedTokenTypeIds tok ml q ctxEnc = loopTokenTypeIds tok q ctxEnc := by
  unfold paddedTokenTypeIds
  rw [h]
  simp

theorem paddedAttentionMask_of_zero (tok : List Char → Encoding) (ml : Nat) (q : List Char)
    (ctxEnc : Encoding) (h : loopPad tok ml q ctxEnc = 0) :
    paddedAttentionMask tok ml q ctxEnc = loopAttentionMask tok q ctxEnc := by
  unfold paddedAttentionMask
  rw [h]
  simp

theorem ansLoop_overflow (tok : List Char → Encoding) (ml : Nat) (q : List Char)
    (ctxEnc : Encoding) (mask : List Nat)
    (hpad : loopPad tok ml q ctxEnc < 0) (off : Nat × Nat) (rest : List (Nat × Nat))
    (idx : Nat) (acc : List Nat) (e : SquadExample) :
    ansLoop tok ml q ctxEnc mask (off :: rest) idx acc e = { e with skip := true } := by
  obtain ⟨s, t⟩ := off
  simp only [ansLoop]
  by_cases hemp : (if 0 < (pySlice mask s t).sum then acc ++ [idx] else acc).isEmpty
  · rw [if_pos hemp]
  · rw [if_neg hemp, if_neg (by omega), if_pos hpad]

theorem ansLoop_assign (tok : List Char → Encoding) (ml : Nat) (q : List Char)
    (ctxEnc : Encoding) (mask : List Nat)
    (hpad : 0 ≤ loopPad tok ml q ctxEnc) :
    ∀ (offs : List (Nat × Nat)) (idx : Nat) (acc : List Nat) (e : SquadExample),
      acc ≠ [] → offs ≠ [] →
      ansLoop tok ml q ctxEnc mask offs idx acc e =
        setDerived e (paddedIds tok ml q ctxEnc) (paddedTokenTypeIds tok ml q ctxEnc)
          (paddedAttentionMask tok ml q ctxEnc)
          ((acc ++ codeAnsTokenIdx mask offs idx).headD 0)
          ((acc ++ codeAnsTokenIdx mask offs idx).getLastD 0) ctxEnc.offsets := by
  intro offs
  induction offs with
  | nil => intro idx acc e _ h; exact absurd rfl h
  | cons off rest ih =>
    intro idx acc e hacc _
    obtain ⟨s, t⟩ := off
    simp only [ansLoop]
    set acc2 := if 0 < (pySlice mask s t).sum then acc ++ [idx] else acc with hacc2
    have hacc2ne : acc2 ≠ [] := by
      rw [hacc2]
      split
      · simp
      · exact hacc
    rw [if_neg (by simpa [List.isEmpty_iff] using hacc2ne)]
    have hcode : acc ++ codeAnsTokenIdx mask ((s, t) :: rest) idx =
        acc2 ++ codeAnsTokenIdx mask rest (idx + 1) := by
      simp only [codeAnsTokenIdx]
      rw [hacc2]
      split
      · rw [← List.append_assoc]
      · rfl
    rcases lt_or_eq_of_le hpad with hlt | heq
    · rw [if_pos hlt]
      cases rest with
      | nil =>
        rw [ansLoop_nil, hcode]
        simp only [codeAnsTokenIdx, List.append_nil]
      | cons off2 rest2 =>
        rw [ih (idx + 1) acc2 _ hacc2ne (by simp), setDerived_setDerived, hcode]
    · rw [if_neg (by omega), if_neg (by omega)]
      rw [paddedIds_of_zero tok ml q ctxEnc heq.symm, paddedTokenTypeIds_of_zero tok ml q ctxEnc heq.symm,
        paddedAttentionMask_of_zero tok ml q ctxEnc heq.symm]
      cases rest with
      | nil =>
        rw [ansLoop_nil, hcode]
        simp only [codeAnsTokenIdx, List.append_nil]
      | cons off2 rest2 =>
        rw [ih (idx + 1) acc2 _ hacc2ne (by simp), setDerived_setDerived, hcode]
        rw [paddedIds_of_zero tok ml q ctxEnc heq.symm, paddedTokenTypeIds_of_zero tok ml q ctxEnc heq.symm,
          paddedAttentionMask_of_zero tok ml q ctxEnc heq.symm]

/-! Section: Shape of a normally returning preprocess run on a fresh example -/

theorem init_question (q c a : List Char) (s : Int) (aa : List (List Char)) :
    (SquadExample.init q c s a aa).question = q := rfl

theorem init_context (q c a : List Char) (s : Int) (aa : List (List Char)) :
    (SquadExample.init q c s a aa).context = c := rfl

theorem init_answer_text (q c a : List Char) (s : Int) (aa : List (List Char)) :
    (SquadExample.init q c s a aa).answer_text = a := rfl

theorem init_start_char_idx (q c a : List Char) (s : Int) (aa : List (List Char)) :
    (SquadExample.init q c s a aa).start_char_idx = s := rfl

theorem preprocess_eq (tok : List Char → Encoding) (ml : Nat) (self : SquadExample) :
    SquadExample.preprocess tok ml self =
      (if ((normalizeWs self.context).length : Int) ≤
          self.start_char_idx + ((normalizeWs self.answer_text).length : Int)
       then some { self with skip := true }
       else
         match markAnswerChars (List.replicate (normalizeWs self.context).length 0)
             self.start_char_idx
             (self.start_char_idx + ((normalizeWs self.answer_text).length : Int)) with
         | none => none
         | some is_char_in_ans =>
           some (ansLoop tok ml (normalizeWs self.question) (tok (normalizeWs self.context))
             is_char_in_ans (tok (normalizeWs self.context)).offsets 0 [] self)) := rfl

theorem preprocess_shape (tok : List Char → Encoding) (ml : Nat) (q c a : List Char)
    (s : Int) (aa : List (List Char)) (r : SquadExample)
    (h : SquadExample.preprocess tok ml (SquadExample.init q c s a aa) = some r) :
    (r = SquadExample.init q c s a aa ∧ (tok (normalizeWs c)).offsets = [])
    ∨ r = { SquadExample.init q c s a aa with skip := true }
    ∨ (∃ m, markAnswerChars (List.replicate (normalizeWs c).length 0) s
          (s + ((normalizeWs a).length : Int)) = some m
        ∧ s + ((normalizeWs a).length : Int) < ((normalizeWs c).length : Int)
        ∧ 0 ≤ loopPad tok ml (normalizeWs q) (tok (normalizeWs c))
        ∧ (∃ off0 rest, (tok (normalizeWs c)).offsets = off0 :: rest
            ∧ 0 < (pySlice m off0.1 off0.2).sum)
        ∧ codeAnsTokenIdx m (tok (normalizeWs c)).offsets 0 ≠ []
        ∧ r = setDerived (SquadExample.init q c s a aa)
            (paddedIds tok ml (normalizeWs q) (tok (normalizeWs c)))
            (paddedTokenTypeIds tok ml (normalizeWs q) (tok (normalizeWs c)))
            (paddedAttentionMask tok ml (normalizeWs q) (tok (normalizeWs c)))
            ((codeAnsTokenIdx m (tok (normalizeWs c)).offsets 0).headD 0)
            ((codeAnsTokenIdx m (tok (normalizeWs c)).offsets 0).getLastD 0)
            (tok (normalizeWs c)).offsets) := by
  rw [preprocess_eq] at h
  simp only [init_question, init_context, init_answer_text, init_start_char_idx] at h
  by_cases hb : ((normalizeWs c).length : Int) ≤ s + ((normalizeWs a).length : Int)
  · rw [if_pos hb] at h
    exact Or.inr (Or.inl (Option.some.inj h).symm)
  · rw [if_neg hb] at h
    cases hm : markAnswerChars (List.replicate (normalizeWs c).length 0) s
        (s + ((normalizeWs a).length : Int)) with
    | none =>
      rw [hm] at h
      exact Option.noConfusion h
    | some m =>
      rw [hm] at h
      have hr : r = ansLoop tok ml (normalizeWs q) (tok (normalizeWs c)) m
          (tok (normalizeWs c)).offsets 0 [] (SquadExample.init q c s a aa) :=
        (Option.some.inj h).symm
      cases hoffs : (tok (normalizeWs c)).offsets with
      | nil =>
        rw [hoffs, ansLoop_nil] at hr
        exact Or.inl ⟨hr, rfl⟩
      | cons off0 rest =>
        obtain ⟨s0, t0⟩ := off0
        rw [hoffs] at hr
        simp only [ansLoop, List.nil_append] at hr
        by_cases htest : 0 < (pySlice m s0 t0).sum
        · rw [if_pos htest] at hr
          rw [if_neg (by simp)] at hr
          have hcode : codeAnsTokenIdx m ((s0, t0) :: rest) 0 =
              [0] ++ codeAnsTokenIdx m rest (0 + 1) := by
            simp only [codeAnsTokenIdx]
            rw [if_pos htest]
          rcases lt_trichotomy (loopPad tok ml (normalizeWs q) (tok (normalizeWs c))) 0 with
            hneg | hzero | hposi
          · rw [if_neg (by omega), if_pos hneg] at hr
            exact Or.inr (Or.inl hr)
          · rw [if_neg (by omega), if_neg (by omega)] at hr
            rw [hoffs] at hr
            refine Or.inr (Or.inr ⟨m, rfl, by omega, by omega,
              ⟨(s0, t0), rest, rfl, htest⟩, ?_, ?_⟩)
            · rw [hcode]; simp
            · cases rest with
              | nil =>
                rw [ansLoop_nil] at hr
                rw [hr, hcode]
                simp only [codeAnsTokenIdx, List.append_nil]
                rw [paddedIds_of_zero tok ml (normalizeWs q) (tok (normalizeWs c)) hzero,
                  paddedTokenTypeIds_of_zero tok ml (normalizeWs q) (tok (normalizeWs c)) hzero,
                  paddedAttentionMask_of_zero tok ml (normalizeWs q) (tok (normalizeWs c)) hzero]
              | cons off2 rest2 =>
                rw [ansLoop_assign tok ml (normalizeWs q) (tok (normalizeWs c)) m (by omega)
                  (off2 :: rest2) (0 + 1) [0] _ (by simp) (by simp),
                  setDerived_setDerived] at hr
                rw [hr, hcode]
                rw [paddedIds_of_zero tok ml (normalizeWs q) (tok (normalizeWs c)) hzero,
                  paddedTokenTypeIds_of_zero tok ml (normalizeWs q) (tok (normalizeWs c)) hzero,
                  paddedAttentionMask_of_zero tok ml (normalizeWs q) (tok (normalizeWs c)) hzero]
                rw [hoffs]
          · rw [if_pos hposi] at hr
            rw [hoffs] at hr
            refine Or.inr (Or.inr ⟨m, rfl, by omega, by omega,
              ⟨(s0, t0), rest, rfl, htest⟩, ?_, ?_⟩)
            · rw [hcode]; simp
            · cases rest with
              | nil =>
                rw [ansLoop_nil] at hr
                rw [hr, hcode]
                simp only [codeAnsTokenIdx, List.append_nil]
              | cons off2 rest2 =>
                rw [ansLoop_assign tok ml (normalizeWs q) (tok (normalizeWs c)) m (by omega)
                  (off2 :: rest2) (0 + 1) [0] _ (by simp) (by simp),
                  setDerived_setDerived] at hr
                rw [hr, hcode, hoffs]
        · rw [if_neg htest] at hr
          rw [if_pos (by simp)] at hr
          exact Or.inr (Or.inl hr)

/-! Section: Auxiliary length lemmas -/

theorem loopTokenTypeIds_length (tok : List Char → Encoding) (q : List Char) (ctxEnc : Encoding) :
    (loopTokenTypeIds tok q ctxEnc).length = (loopInputIds tok q ctxEnc).length := by
  simp [loopTokenTypeIds, loopInputIds]

theorem loopAttentionMask_length (tok : List Char → Encoding) (q : List Char) (ctxEnc : Encoding) :
    (loopAttentionMask tok q ctxEnc).length = (loopInputIds tok q ctxEnc).length := by
  simp [loopAttentionMask]

/-! Section: Claim C1 -/

/-- A BERT-style tokenization of the context `"abc"`: a leading special token
with offset pair `(0, 0)`, the context token, a trailing special token. -/
def cexC1tok : List Char → Encoding := fun str =>
  if str = ['a', 'b', 'c'] then Encoding.mk [101, 7, 102] [(0, 0), (0, 3), (0, 0)]
  else Encoding.mk [101, 8, 102] [(0, 0), (0, 1), (0, 0)]

/-- Example whose answer `"b"` occurs verbatim in the context `"abc"` at
`start_char_idx = 1`. -/
def cexC1ex : SquadExample := SquadExample.init ['q'] ['a', 'b', 'c'] 1 ['b'] []

/-- Claim C1: for an Example whose answer_text occurs verbatim in the context at
start_char_idx, the claim asserts a non-skipped result with a valid token span.
On the code as written this fails: because the emptiness check of
`ans_token_idx` sits inside the per-token loop, the leading special token with
offset pair (0, 0) never overlaps the answer, so the Example is skipped at the
very first iteration and no token span is produced.  This theorem evaluates the
embedded code at such a failing input. -/
theorem claim_C1_evidence :
    (cexC1ex.context.drop 1).take 1 = cexC1ex.answer_text ∧
    (cexC1tok (normalizeWs cexC1ex.context)).offsets.headD (0, 0) = (0, 0) ∧
    SquadExample.preprocess cexC1tok 8 cexC1ex = some { cexC1ex with skip := true } ∧
    ({ cexC1ex with skip := true }).skip = true ∧
    ({ cexC1ex with skip := true }).start_token_idx = none ∧
    ({ cexC1ex with skip := true }).end_token_idx = none := by decide

/-! Section: Claim C2 -/

/-- A tokenizer returning an empty offsets sequence. -/
def cexC2tok : List Char → Encoding := fun _ => Encoding.mk [] []

/-- Fresh example fed to the empty-offsets tokenizer. -/
def cexC2ex : SquadExample := SquadExample.init ['w'] ['d', 'e', 'f'] 1 ['e'] []

/-- Claim C2 counterexample: on a tokenized context with an empty offsets
sequence, `preprocess` falls through the loop and returns with `skip = false`
and none of the derived fields assigned — a non-skipped, non-aligned state the
claim asserts can never be produced. -/
theorem claim_C2_counterexample :
    SquadExample.preprocess cexC2tok 4 cexC2ex = some cexC2ex ∧
    cexC2ex.skip = false ∧
    cexC2ex.input_ids = none ∧
    cexC2ex.token_type_ids = none ∧
    cexC2ex.attention_mask = none ∧
    cexC2ex.start_token_idx = none ∧
    cexC2ex.end_token_idx = none ∧
    (cexC2tok (normalizeWs cexC2ex.context)).offsets = [] := by decide

/-- Claim C2 (amended): provided the tokenized context has a nonempty offsets
sequence, every normally returning run of `preprocess` on a freshly
constructed Example ends in exactly one of two states: skip with no derived
field assigned, or non-skip with all five derived fields assigned. -/
theorem claim_C2_amended (tok : List Char → Encoding) (ml : Nat) (q c a : List Char)
    (s : Int) (aa : List (List Char)) (r : SquadExample)
    (hoffs : (tok (normalizeWs c)).offsets ≠ [])
    (h : SquadExample.preprocess tok ml (SquadExample.init q c s a aa) = some r) :
    (r.skip = true ∧ r.input_ids = none ∧ r.token_type_ids = none ∧
      r.attention_mask = none ∧ r.start_token_idx = none ∧ r.end_token_idx = none)
    ∨ (r.skip = false ∧ r.input_ids.isSome = true ∧ r.token_type_ids.isSome = true ∧
      r.attention_mask.isSome = true ∧ r.start_token_idx.isSome = true ∧
      r.end_token_idx.isSome = true) := by
  rcases preprocess_shape tok ml q c a s aa r h with ⟨_, h2⟩ | h2 | ⟨m, _, _, _, _, _, hr⟩
  · exact absurd h2 hoffs
  · rw [h2]
    exact Or.inl ⟨rfl, rfl, rfl, rfl, rfl, rfl⟩
  · rw [hr]
    exact Or.inr ⟨rfl, rfl, rfl, rfl, rfl, rfl⟩

/-- Tokenizer for the C2 witness run. -/
def witC2tok : List Char → Encoding := fun str =>
  if str = ['a', 'b'] then Encoding.mk [3] [(0, 1)] else Encoding.mk [9, 8] [(0, 1)]

/-- The fully aligned result of the C2 witness run. -/
def witC2res : SquadExample :=
  { question := ['u'], context := ['a', 'b'], start_char_idx := 0, answer_text := ['a'],
    all_answers := [], skip := false, input_ids := some [3, 8, 0],
    token_type_ids := some [0, 1, 0], attention_mask := some [1, 1, 0],
    start_token_idx := some 0, end_token_idx := some 0,
    context_token_to_char := some [(0, 1)] }

/-- Witness for claim C2 (amended): a concrete run satisfying the hypotheses. -/
theorem claim_C2_witness :
    (witC2res.skip = true ∧ witC2res.input_ids = none ∧ witC2res.token_type_ids = none ∧
      witC2res.attention_mask = none ∧ witC2res.start_token_idx = none ∧
      witC2res.end_token_idx = none)
    ∨ (witC2res.skip = false ∧ witC2res.input_ids.isSome = true ∧
      witC2res.token_type_ids.isSome = true ∧ witC2res.attention_mask.isSome = true ∧
      witC2res.start_token_idx.isSome = true ∧ witC2res.end_token_idx.isSome = true) :=
  claim_C2_amended witC2tok 3 ['u'] ['a', 'b'] ['a'] 0 [] witC2res (by decide) (by decide)

/-! Section: Claim C3 -/

/-- A tokenizer returning no tokens at all. -/
def cexC3tok : List Char → Encoding := fun _ => Encoding.mk [] []

/-- Fresh example fed to the token-free tokenizer. -/
def cexC3ex : SquadExample := SquadExample.init ['p'] ['x', 'y', 'z'] 0 ['x'] []

/-- Claim C3 counterexample: with an empty tokenized context no token overlaps
the answer interval (vacuously), yet `preprocess` returns with `skip = false`
instead of marking the Example as Skip. -/
theorem claim_C3_counterexample :
    (cexC3tok (normalizeWs cexC3ex.context)).offsets = [] ∧
    SquadExample.preprocess cexC3tok 4 cexC3ex = some cexC3ex ∧
    cexC3ex.skip = false := by decide

/-- Claim C3 (amended): for a nonnegative start_char_idx and a nonempty
tokenized context, if no context token's span overlaps the answer's character
interval, a normally returning `preprocess` marks the Example as Skip and
assigns no derived field. -/
theorem claim_C3_amended (tok : List Char → Encoding) (ml : Nat) (q c a : List Char)
    (s : Int) (aa : List (List Char)) (r : SquadExample)
    (hs : 0 ≤ s)
    (hoffs : (tok (normalizeWs c)).offsets ≠ [])
    (hno : ∀ off ∈ (tok (normalizeWs c)).offsets,
      overlapsAnswer s (s + ((normalizeWs a).length : Int)) off = false)
    (h : SquadExample.preprocess tok ml (SquadExample.init q c s a aa) = some r) :
    r = { SquadExample.init q c s a aa with skip := true } := by
  rcases preprocess_shape tok ml q c a s aa r h with ⟨_, h2⟩ | h2 | ⟨m, hm, hblen, _, _, hne, _⟩
  · exact absurd h2 hoffs
  · exact h2
  · exfalso
    obtain ⟨m2, hm2, hlen2, hget2⟩ := markAnswerChars_spec (normalizeWs c).length s
      (s + ((normalizeWs a).length : Int)) hs (by omega)
    rw [hm] at hm2
    have hmeq : m = m2 := Option.some.inj hm2
    subst hmeq
    apply hne
    rw [codeAnsTokenIdx_eq_spec m (normalizeWs c).length s
      (s + ((normalizeWs a).length : Int)) hlen2 hget2 hs (by omega)]
    exact answerTokenIdxsGo_eq_nil _ _ _ 0 hno

/-- Tokenizer for the C3 witness run: its single token does not overlap. -/
def witC3tok : List Char → Encoding := fun str =>
  if str = ['a', 'b', 'c'] then Encoding.mk [5] [(2, 3)] else Encoding.mk [9, 8] [(0, 1)]

/-- Example for the C3 witness run. -/
def witC3ex : SquadExample := SquadExample.init ['v'] ['a', 'b', 'c'] 0 ['a'] []

/-- Witness for claim C3 (amended): a concrete no-overlap run. -/
theorem claim_C3_witness :
    SquadExample.preprocess witC3tok 4 witC3ex = some { witC3ex with skip := true } ∧
    ({ witC3ex with skip := true } : SquadExample) = { witC3ex with skip := true } :=
  ⟨by decide, claim_C3_amended witC3tok 4 ['v'] ['a', 'b', 'c'] ['a'] 0 []
    { witC3ex with skip := true } (by decide) (by decide) (by decide) (by decide)⟩

/-! Section: Claim C4 -/

/-- Claim C4: whenever start_char_idx plus the length of the whitespace-
normalized answer is at least the length of the whitespace-normalized context,
`preprocess` marks the Example as Skip and returns at once. -/
theorem claim_C4 (tok : List Char → Encoding) (ml : Nat) (e : SquadExample)
    (h : ((normalizeWs e.context).length : Int) ≤
      e.start_char_idx + ((normalizeWs e.answer_text).length : Int)) :
    SquadExample.preprocess tok ml e = some { e with skip := true } := by
  rw [preprocess_eq, if_pos h]

/-- Tokenizer for the C4 witness (never reached). -/
def witC4tok : List Char → Encoding := fun _ => Encoding.mk [] []

/-- Example for the C4 witness: answer of length two at offset zero in a
one-character context. -/
def witC4ex : SquadExample := SquadExample.init ['k'] ['m'] 0 ['n', 'o'] []

/-- Witness for claim C4. -/
theorem claim_C4_witness :
    (((normalizeWs witC4ex.context).length : Int) ≤
      witC4ex.start_char_idx + ((normalizeWs witC4ex.answer_text).length : Int)) ∧
    SquadExample.preprocess witC4tok 4 witC4ex = some { witC4ex with skip := true } :=
  ⟨by decide, claim_C4 witC4tok 4 witC4ex (by decide)⟩

/-! Section: Claim C5 -/

/-- Tokenizer for the C5 counterexample: one context token spanning chars 3-4. -/
def cexC5tok : List Char → Encoding := fun str =>
  if str = ['a', 'b', 'c', 'd', 'e'] then Encoding.mk [7] [(3, 4)]
  else Encoding.mk [9, 8] [(0, 1), (0, 1)]

/-- Example with a negative start_char_idx: Python's negative indexing wraps
the character marks to the end of the context. -/
def cexC5ex : SquadExample := SquadExample.init ['q'] ['a', 'b', 'c', 'd', 'e'] (-2) ['x'] []

/-- The non-skipped result produced for the negative-offset example. -/
def cexC5res : SquadExample :=
  { question := ['q'], context := ['a', 'b', 'c', 'd', 'e'], start_char_idx := -2,
    answer_text := ['x'], all_answers := [], skip := false, input_ids := some [7, 8, 0, 0],
    token_type_ids := some [0, 1, 0, 0], attention_mask := some [1, 1, 0, 0],
    start_token_idx := some 0, end_token_idx := some 0,
    context_token_to_char := some [(3, 4)] }

/-- Claim C5 counterexample: with `start_char_idx = -2` the character-marking
loop wraps around, so `preprocess` returns a non-skipped result whose
start_token_idx is 0 although no token's span contains any character of the
answer interval `[-2, -1)` — the set of claimed answer tokens is empty. -/
theorem claim_C5_counterexample :
    SquadExample.preprocess cexC5tok 4 cexC5ex = some cexC5res ∧
    cexC5res.skip = false ∧
    cexC5res.start_token_idx = some 0 ∧
    cexC5res.end_token_idx = some 0 ∧
    answerTokenIdxs (cexC5tok (normalizeWs cexC5ex.context)).offsets cexC5ex.start_char_idx
      (cexC5ex.start_char_idx + ((normalizeWs cexC5ex.answer_text).length : Int)) = [] := by
  decide

/-- Claim C5 (amended): for a nonnegative start_char_idx, whenever a normally
returning `preprocess` run assigns start and end token indices, the set of
tokens overlapping the answer interval is nonempty, start_token_idx is the
first such token index and end_token_idx is the last one. -/
theorem claim_C5_amended (tok : List Char → Encoding) (ml : Nat) (q c a : List Char)
    (s : Int) (aa : List (List Char)) (r : SquadExample) (st et : Nat)
    (hs : 0 ≤ s)
    (h : SquadExample.preprocess tok ml (SquadExample.init q c s a aa) = some r)
    (hst : r.start_token_idx = some st)
    (het : r.end_token_idx = some et) :
    answerTokenIdxs (tok (normalizeWs c)).offsets s (s + ((normalizeWs a).length : Int)) ≠ []
    ∧ st = (answerTokenIdxs (tok (normalizeWs c)).offsets s
        (s + ((normalizeWs a).length : Int))).headD 0
    ∧ et = (answerTokenIdxs (tok (normalizeWs c)).offsets s
        (s + ((normalizeWs a).length : Int))).getLastD 0 := by
  rcases preprocess_shape tok ml q c a s aa r h with ⟨h1, _⟩ | h2 | ⟨m, hm, hblen, _, _, hne, hr⟩
  · rw [h1] at hst
    exact Option.noConfusion hst
  · rw [h2] at hst
    exact Option.noConfusion hst
  · obtain ⟨m2, hm2, hlen2, hget2⟩ := markAnswerChars_spec (normalizeWs c).length s
      (s + ((normalizeWs a).length : Int)) hs (by omega)
    rw [hm] at hm2
    have hmeq : m = m2 := Option.some.inj hm2
    subst hmeq
    have hbridge := codeAnsTokenIdx_eq_spec m (normalizeWs c).length s
      (s + ((normalizeWs a).length : Int)) hlen2 hget2 hs (by omega)
      (tok (normalizeWs c)).offsets 0
    rw [hr] at hst het
    have hst2 : st = (codeAnsTokenIdx m (tok (normalizeWs c)).offsets 0).headD 0 :=
      (Option.some.inj hst).symm
    have het2 : et = (codeAnsTokenIdx m (tok (normalizeWs c)).offsets 0).getLastD 0 :=
      (Option.some.inj het).symm
    unfold answerTokenIdxs
    rw [← hbridge]
    exact ⟨hne, hst2, het2⟩

/-- Tokenizer for the C5 witness run. -/
def witC5tok : List Char → Encoding := fun str =>
  if str = ['a', 'b', 'c'] then Encoding.mk [5, 6] [(0, 1), (1, 3)]
  else Encoding.mk [9, 8] [(0, 1), (0, 1)]

/-- The aligned result of the C5 witness run. -/
def witC5res : SquadExample :=
  { question := ['w'], context := ['a', 'b', 'c'], start_char_idx := 0, answer_text := ['a'],
    all_answers := [], skip := false, input_ids := some [5, 6, 8, 0],
    token_type_ids := some [0, 0, 1, 0], attention_mask := some [1, 1, 1, 0],
    start_token_idx := some 0, end_token_idx := some 0,
    context_token_to_char := some [(0, 1), (1, 3)] }

/-- Witness for claim C5 (amended): a concrete aligned run. -/
theorem claim_C5_witness :
    answerTokenIdxs (witC5tok (normalizeWs ['a', 'b', 'c'])).offsets 0
      (0 + ((normalizeWs ['a']).length : Int)) ≠ []
    ∧ 0 = (answerTokenIdxs (witC5tok (normalizeWs ['a', 'b', 'c'])).offsets 0
        (0 + ((normalizeWs ['a']).length : Int))).headD 0
    ∧ 0 = (answerTokenIdxs (witC5tok (normalizeWs ['a', 'b', 'c'])).offsets 0
        (0 + ((normalizeWs ['a']).length : Int))).getLastD 0 :=
  claim_C5_amended witC5tok 4 ['w'] ['a', 'b', 'c'] ['a'] 0 [] witC5res 0 0
    (by decide) (by decide) (by decide) (by decide)

/-! Section: Claim C6 -/

/-- Claim C6: for every normally returning run on a fresh Example whose derived
sequences were assigned, the pre-padding prefix of input_ids is the context
token ids followed by the question token ids with the question's leading
special token dropped; token_type_ids is 0 on context positions and 1 on
appended question positions; attention_mask is 1 on every pre-padding
position. -/
theorem claim_C6 (tok : List Char → Encoding) (ml : Nat) (q c a : List Char)
    (s : Int) (aa : List (List Char)) (r : SquadExample) (ii tti am : List Nat)
    (h : SquadExample.preprocess tok ml (SquadExample.init q c s a aa) = some r)
    (hii : r.input_ids = some ii)
    (htt : r.token_type_ids = some tti)
    (ham : r.attention_mask = some am) :
    ii.take (loopInputIds tok (normalizeWs q) (tok (normalizeWs c))).length =
      (tok (normalizeWs c)).ids ++ (tok (normalizeWs q)).ids.drop 1
    ∧ tti.take (loopInputIds tok (normalizeWs q) (tok (normalizeWs c))).length =
      List.replicate (tok (normalizeWs c)).ids.length 0 ++
        List.replicate ((tok (normalizeWs q)).ids.drop 1).length 1
    ∧ am.take (loopInputIds tok (normalizeWs q) (tok (normalizeWs c))).length =
      List.replicate (loopInputIds tok (normalizeWs q) (tok (normalizeWs c))).length 1 := by
  rcases preprocess_shape tok ml q c a s aa r h with ⟨h1, _⟩ | h2 | ⟨m, _, _, _, _, _, hr⟩
  · rw [h1] at hii
    exact Option.noConfusion hii
  · rw [h2] at hii
    exact Option.noConfusion hii
  · rw [hr] at hii htt ham
    have hii2 : ii = paddedIds tok ml (normalizeWs q) (tok (normalizeWs c)) :=
      (Option.some.inj hii).symm
    have htt2 : tti = paddedTokenTypeIds tok ml (normalizeWs q) (tok (normalizeWs c)) :=
      (Option.some.inj htt).symm
    have ham2 : am = paddedAttentionMask tok ml (normalizeWs q) (tok (normalizeWs c)) :=
      (Option.some.inj ham).symm
    refine ⟨?_, ?_, ?_⟩
    · rw [hii2]
      unfold paddedIds
      rw [List.take_left]
      rfl
    · rw [htt2]
      unfold paddedTokenTypeIds
      rw [List.take_left' (loopTokenTypeIds_length tok (normalizeWs q) (tok (normalizeWs c)))]
      rfl
    · rw [ham2]
      unfold paddedAttentionMask
      rw [List.take_left' (loopAttentionMask_length tok (normalizeWs q) (tok (normalizeWs c)))]
      rfl

/-- Tokenizer for the C6 witness run, exercising the zero-padding path. -/
def witC6tok : List Char → Encoding := fun str =>
  if str = ['a', 'b', 'c'] then Encoding.mk [4, 5] [(1, 2), (0, 0)] else Encoding.mk [9, 8] [(0, 1)]

/-- The aligned (unpadded, `padding_length = 0`) result of the C6 witness run. -/
def witC6res : SquadExample :=
  { question := ['y'], context := ['a', 'b', 'c'], start_char_idx := 1, answer_text := ['b'],
    all_answers := [], skip := false, input_ids := some [4, 5, 8],
    token_type_ids := some [0, 0, 1], attention_mask := some [1, 1, 1],
    start_token_idx := some 0, end_token_idx := some 0,
    context_token_to_char := some [(1, 2), (0, 0)] }

/-- Witness for claim C6. -/
theorem claim_C6_witness :
    ([4, 5, 8] : List Nat).take
        (loopInputIds witC6tok (normalizeWs ['y']) (witC6tok (normalizeWs ['a', 'b', 'c']))).length =
      (witC6tok (normalizeWs ['a', 'b', 'c'])).ids ++ (witC6tok (normalizeWs ['y'])).ids.drop 1
    ∧ ([0, 0, 1] : List Nat).take
        (loopInputIds witC6tok (normalizeWs ['y']) (witC6tok (normalizeWs ['a', 'b', 'c']))).length =
      List.replicate (witC6tok (normalizeWs ['a', 'b', 'c'])).ids.length 0 ++
        List.replicate ((witC6tok (normalizeWs ['y'])).ids.drop 1).length 1
    ∧ ([1, 1, 1] : List Nat).take
        (loopInputIds witC6tok (normalizeWs ['y']) (witC6tok (normalizeWs ['a', 'b', 'c']))).length =
      List.replicate
        (loopInputIds witC6tok (normalizeWs ['y']) (witC6tok (normalizeWs ['a', 'b', 'c']))).length 1 :=
  claim_C6 witC6tok 3 ['y'] ['a', 'b', 'c'] ['b'] 1 [] witC6res [4, 5, 8] [0, 0, 1] [1, 1, 1]
    (by decide) rfl rfl rfl

/-! Section: Claim C7 -/

/-- Tokenizer for the C7 counterexample: many ids but an empty offsets list. -/
def cexC7tok : List Char → Encoding := fun str =>
  if str = ['a', 'b', 'c'] then Encoding.mk [1, 2, 3] [] else Encoding.mk [9, 8] [(0, 1)]

/-- Example for the C7 counterexample. -/
def cexC7ex : SquadExample := SquadExample.init ['t'] ['a', 'b', 'c'] 1 ['b'] []

/-- Claim C7 counterexample: the unpadded input length (4) exceeds max_len (2),
yet because the offsets sequence is empty the loop never executes, so the
result is not Skip — contradicting "for every input whose unpadded input
length exceeds max_len the result is Skip". -/
theorem claim_C7_counterexample :
    SquadExample.preprocess cexC7tok 2 cexC7ex = some cexC7ex ∧
    cexC7ex.skip = false ∧
    2 < (loopInputIds cexC7tok (normalizeWs cexC7ex.question)
      (cexC7tok (normalizeWs cexC7ex.context))).length := by decide

/-- Claim C7 (amended): for every normally returning run on a fresh Example,
any assigned derived sequence has length exactly max_len with zeros beyond the
unpadded length; and when the tokenized context is nonempty, an unpadded input
length exceeding max_len forces the Skip flag (no truncation is performed). -/
theorem claim_C7_amended (tok : List Char → Encoding) (ml : Nat) (q c a : List Char)
    (s : Int) (aa : List (List Char)) (r : SquadExample)
    (h : SquadExample.preprocess tok ml (SquadExample.init q c s a aa) = some r) :
    ((r.input_ids.isSome = true →
        (r.input_ids.getD []).length = ml ∧
        (r.input_ids.getD []).drop
            (loopInputIds tok (normalizeWs q) (tok (normalizeWs c))).length =
          List.replicate
            (ml - (loopInputIds tok (normalizeWs q) (tok (normalizeWs c))).length) 0)
    ∧ (r.token_type_ids.isSome = true →
        (r.token_type_ids.getD []).length = ml ∧
        (r.token_type_ids.getD []).drop
            (loopInputIds tok (normalizeWs q) (tok (normalizeWs c))).length =
          List.replicate
            (ml - (loopInputIds tok (normalizeWs q) (tok (normalizeWs c))).length) 0)
    ∧ (r.attention_mask.isSome = true →
        (r.attention_mask.getD []).length = ml ∧
        (r.attention_mask.getD []).drop
            (loopInputIds tok (normalizeWs q) (tok (normalizeWs c))).length =
          List.replicate
            (ml - (loopInputIds tok (normalizeWs q) (tok (normalizeWs c))).length) 0))
    ∧ ((tok (normalizeWs c)).offsets ≠ [] →
        ml < (loopInputIds tok (normalizeWs q) (tok (normalizeWs c))).length →
        r.skip = true) := by
  rcases preprocess_shape tok ml q c a s aa r h with ⟨h1, hoffs⟩ | h2 | ⟨m, _, _, hpad, _, _, hr⟩
  · rw [h1]
    refine ⟨⟨?_, ?_, ?_⟩, ?_⟩
    · intro hx; simp [SquadExample.init] at hx
    · intro hx; simp [SquadExample.init] at hx
    · intro hx; simp [SquadExample.init] at hx
    · intro hoffs2 _; exact absurd hoffs hoffs2
  · rw [h2]
    refine ⟨⟨?_, ?_, ?_⟩, ?_⟩
    · intro hx; simp [SquadExample.init] at hx
    · intro hx; simp [SquadExample.init] at hx
    · intro hx; simp [SquadExample.init] at hx
    · intro _ _; rfl
  · have hphys : (loopPad tok ml (normalizeWs q) (tok (normalizeWs c))).toNat =
        ml - (loopInputIds tok (normalizeWs q) (tok (normalizeWs c))).length := by
      unfold loopPad at hpad ⊢
      omega
    have hle : (loopInputIds tok (normalizeWs q) (tok (normalizeWs c))).length ≤ ml := by
      unfold loopPad at hpad
      omega
    rw [hr]
    refine ⟨⟨?_, ?_, ?_⟩, ?_⟩
    · intro _
      constructor
      · show (paddedIds tok ml (normalizeWs q) (tok (normalizeWs c))).length = ml
        unfold paddedIds
        rw [List.length_append, List.length_replicate, hphys]
        omega
      · show (paddedIds tok ml (normalizeWs q) (tok (normalizeWs c))).drop _ =
          List.replicate _ 0
        unfold paddedIds
        rw [List.drop_left, hphys]
    · intro _
      constructor
      · show (paddedTokenTypeIds tok ml (normalizeWs q) (tok (normalizeWs c))).length = ml
        unfold paddedTokenTypeIds
        rw [List.length_append, List.length_replicate,
          loopTokenTypeIds_length tok (normalizeWs q) (tok (normalizeWs c)), hphys]
        omega
      · show (paddedTokenTypeIds tok ml (normalizeWs q) (tok (normalizeWs c))).drop _ =
          List.replicate _ 0
        unfold paddedTokenTypeIds
        rw [List.drop_left' (loopTokenTypeIds_length tok (normalizeWs q) (tok (normalizeWs c))),
          hphys]
    · intro _
      constructor
      · show (paddedAttentionMask tok ml (normalizeWs q) (tok (normalizeWs c))).length = ml
        unfold paddedAttentionMask
        rw [List.length_append, List.length_replicate,
          loopAttentionMask_length tok (normalizeWs q) (tok (normalizeWs c)), hphys]
        omega
      · show (paddedAttentionMask tok ml (normalizeWs q) (tok (normalizeWs c))).drop _ =
          List.replicate _ 0
        unfold paddedAttentionMask
        rw [List.drop_left' (loopAttentionMask_length tok (normalizeWs q) (tok (normalizeWs c))),
          hphys]
    · intro _ hml
      omega

/-- Tokenizer for the C7 witness run. -/
def witC7tok : List Char → Encoding := fun str =>
  if str = ['b', 'd'] then Encoding.mk [6] [(0, 1)] else Encoding.mk [9, 4] [(0, 1)]

/-- The aligned, padded result of the C7 witness run. -/
def witC7res : SquadExample :=
  { question := ['z'], context := ['b', 'd'], start_char_idx := 0, answer_text := ['b'],
    all_answers := [], skip := false, input_ids := some [6, 4, 0],
    token_type_ids := some [0, 1, 0], attention_mask := some [1, 1, 0],
    start_token_idx := some 0, end_token_idx := some 0,
    context_token_to_char := some [(0, 1)] }

/-- Witness for claim C7 (amended). -/
theorem claim_C7_witness :
    ((witC7res.input_ids.isSome = true →
        (witC7res.input_ids.getD []).length = 3 ∧
        (witC7res.input_ids.getD []).drop
            (loopInputIds witC7tok (normalizeWs ['z']) (witC7tok (normalizeWs ['b', 'd']))).length =
          List.replicate
            (3 - (loopInputIds witC7tok (normalizeWs ['z'])
              (witC7tok (normalizeWs ['b', 'd']))).length) 0)
    ∧ (witC7res.token_type_ids.isSome = true →
        (witC7res.token_type_ids.getD []).length = 3 ∧
        (witC7res.token_type_ids.getD []).drop
            (loopInputIds witC7tok (normalizeWs ['z']) (witC7tok (normalizeWs ['b', 'd']))).length =
          List.replicate
            (3 - (loopInputIds witC7tok (normalizeWs ['z'])
              (witC7tok (normalizeWs ['b', 'd']))).length) 0)
    ∧ (witC7res.attention_mask.isSome = true →
        (witC7res.attention_mask.getD []).length = 3 ∧
        (witC7res.attention_mask.getD []).drop
            (loopInputIds witC7tok (normalizeWs ['z']) (witC7tok (normalizeWs ['b', 'd']))).length =
          List.replicate
            (3 - (loopInputIds witC7tok (normalizeWs ['z'])
              (witC7tok (normalizeWs ['b', 'd']))).length) 0))
    ∧ ((witC7tok (normalizeWs ['b', 'd'])).offsets ≠ [] →
        3 < (loopInputIds witC7tok (normalizeWs ['z'])
          (witC7tok (normalizeWs ['b', 'd']))).length →
        witC7res.skip = true) :=
  claim_C7_amended witC7tok 3 ['z'] ['b', 'd'] ['b'] 0 [] witC7res (by decide)

/-! Section: Claim C8 -/

/-- Tokenizer for the C8 counterexample (never consulted before the error). -/
def cexC8tok : List Char → Encoding := fun _ => Encoding.mk [] []

/-- Example with `start_char_idx = -10` in a two-character context: the
character-marking loop executes `is_char_in_ans[-10] = 1`, an `IndexError`. -/
def cexC8ex : SquadExample := SquadExample.init ['g'] ['a', 'b'] (-10) ['c'] []

/-- Claim C8 counterexample: `preprocess` does not terminate normally for every
integer start_char_idx — a start index below minus the context length makes the
marking loop raise `IndexError` (modelled as `none`) instead of setting skip. -/
theorem claim_C8_counterexample :
    SquadExample.preprocess cexC8tok 4 cexC8ex = none := by decide

/-- Claim C8 (amended): provided start_char_idx is at least minus the length of
the normalized context (in particular whenever it is nonnegative), `preprocess`
terminates normally for every input, reporting failures only via the skip
flag. -/
theorem claim_C8_amended (tok : List Char → Encoding) (ml : Nat) (e : SquadExample)
    (hs : -(((normalizeWs e.context).length : Int)) ≤ e.start_char_idx) :
    (SquadExample.preprocess tok ml e).isSome = true := by
  rw [preprocess_eq]
  by_cases hb : ((normalizeWs e.context).length : Int) ≤
      e.start_char_idx + ((normalizeWs e.answer_text).length : Int)
  · rw [if_pos hb]
    rfl
  · rw [if_neg hb]
    have hmark : (markAnswerChars (List.replicate (normalizeWs e.context).length 0)
        e.start_char_idx
        (e.start_char_idx + ((normalizeWs e.answer_text).length : Int))).isSome = true := by
      unfold markAnswerChars
      apply markRangeGo_isSome
      · rw [List.length_replicate]
        exact hs
      · rw [List.length_replicate]
        omega
    cases hm2 : markAnswerChars (List.replicate (normalizeWs e.context).length 0)
        e.start_char_idx
        (e.start_char_idx + ((normalizeWs e.answer_text).length : Int)) with
    | none =>
      rw [hm2] at hmark
      simp at hmark
    | some m => rfl

/-- Tokenizer for the C8 witness run. -/
def witC8tok : List Char → Encoding := fun _ => Encoding.mk [2] [(0, 1)]

/-- Example for the C8 witness run. -/
def witC8ex : SquadExample := SquadExample.init ['h'] ['c', 'd'] 0 ['c'] []

/-- Witness for claim C8 (amended). -/
theorem claim_C8_witness :
    (-(((normalizeWs witC8ex.context).length : Int)) ≤ witC8ex.start_char_idx) ∧
    (SquadExample.preprocess witC8tok 4 witC8ex).isSome = true :=
  ⟨by decide, claim_C8_amended witC8tok 4 witC8ex (by decide)⟩

/-! Section: Claim C9 -/

/-- Claim C9: `preprocess` is a pure, deterministic function of the Example's
original fields for a fixed tokenizer and max_len: it never modifies the
original fields, and re-running it on an Example freshly rebuilt from those
fields returns exactly the same result — same skip flag and same derived
fields. -/
theorem claim_C9 (tok : List Char → Encoding) (ml : Nat) (q c a : List Char)
    (s : Int) (aa : List (List Char)) (r : SquadExample)
    (h : SquadExample.preprocess tok ml (SquadExample.init q c s a aa) = some r) :
    (r.question = q ∧ r.context = c ∧ r.answer_text = a ∧ r.start_char_idx = s ∧
      r.all_answers = aa) ∧
    SquadExample.preprocess tok ml
      (SquadExample.init r.question r.context r.start_char_idx r.answer_text r.all_answers) =
      some r := by
  have horig : r.question = q ∧ r.context = c ∧ r.answer_text = a ∧ r.start_char_idx = s ∧
      r.all_answers = aa := by
    rcases preprocess_shape tok ml q c a s aa r h with ⟨h1, _⟩ | h2 | ⟨m, _, _, _, _, _, hr⟩
    · rw [h1]
      exact ⟨rfl, rfl, rfl, rfl, rfl⟩
    · rw [h2]
      exact ⟨rfl, rfl, rfl, rfl, rfl⟩
    · rw [hr]
      exact ⟨rfl, rfl, rfl, rfl, rfl⟩
  obtain ⟨h1, h2, h3, h4, h5⟩ := horig
  refine ⟨⟨h1, h2, h3, h4, h5⟩, ?_⟩
  rw [h1, h2, h3, h4, h5]
  exact h

/-- Tokenizer for the C9 witness run. -/
def witC9tok : List Char → Encoding := fun _ => Encoding.mk [] []

/-- Example for the C9 witness run (skipped by the bounds check). -/
def witC9ex : SquadExample := SquadExample.init ['j'] ['p'] 0 ['r', 's'] []

/-- Witness for claim C9. -/
theorem claim_C9_witness :
    ((({ witC9ex with skip := true } : SquadExample).question = ['j'] ∧
      ({ witC9ex with skip := true } : SquadExample).context = ['p'] ∧
      ({ witC9ex with skip := true } : SquadExample).answer_text = ['r', 's'] ∧
      ({ witC9ex with skip := true } : SquadExample).start_char_idx = 0 ∧
      ({ witC9ex with skip := true } : SquadExample).all_answers = []) ∧
    SquadExample.preprocess witC9tok 4
      (SquadExample.init ({ witC9ex with skip := true } : SquadExample).question
        ({ witC9ex with skip := true } : SquadExample).context
        ({ witC9ex with skip := true } : SquadExample).start_char_idx
        ({ witC9ex with skip := true } : SquadExample).answer_text
        ({ witC9ex with skip := true } : SquadExample).all_answers) =
      some { witC9ex with skip := true }) :=
  claim_C9 witC9tok 4 ['j'] ['p'] ['r', 's'] 0 [] { witC9ex with skip := true } (by decide)

/-! Section: Claim C10 -/

/-- Tokenizer for the C10 counterexample: a single context token at (2, 3). -/
def cexC10tok : List Char → Encoding := fun str =>
  if str = ['a', 'b', 'c', 'd', 'e'] then Encoding.mk [7] [(2, 3)]
  else Encoding.mk [9, 8] [(0, 1)]

/-- Example for the C10 counterexample, with `start_char_idx = -3`. -/
def cexC10ex : SquadExample := SquadExample.init ['m'] ['a', 'b', 'c', 'd', 'e'] (-3) ['x'] []

/-- The non-skipped result produced for the C10 counterexample input. -/
def cexC10res : SquadExample :=
  { question := ['m'], context := ['a', 'b', 'c', 'd', 'e'], start_char_idx := -3,
    answer_text := ['x'], all_answers := [], skip := false, input_ids := some [7, 8, 0, 0],
    token_type_ids := some [0, 1, 0, 0], attention_mask := some [1, 1, 0, 0],
    start_token_idx := some 0, end_token_idx := some 0,
    context_token_to_char := some [(2, 3)] }

/-- Claim C10 counterexample: with `start_char_idx = -3` the first (and only)
context token (2, 3) does not overlap the answer's character interval
`[-3, -2)`, yet `preprocess` does not skip: Python's negative indexing wraps
the character mark onto position 2, the code's slice test fires, and a fully
aligned non-skipped result is returned — refuting the claim as stated for
every input. -/
theorem claim_C10_counterexample :
    (cexC10tok (normalizeWs cexC10ex.context)).offsets = [(2, 3)] ∧
    overlapsAnswer cexC10ex.start_char_idx
      (cexC10ex.start_char_idx + ((normalizeWs cexC10ex.answer_text).length : Int))
      (2, 3) = false ∧
    SquadExample.preprocess cexC10tok 4 cexC10ex = some cexC10res ∧
    cexC10res.skip = false ∧
    cexC10res.start_token_idx = some 0 := by decide

/-- Claim C10 (amended): for a nonnegative start_char_idx — so that the
answer's character interval coincides with the characters the code marks —
because the emptiness check of `ans_token_idx` executes inside the per-token
loop, whenever the first token of the tokenized context does not overlap the
answer's character interval, every normally returning `preprocess` run sets
skip and assigns nothing — even when later context tokens do overlap the
answer. -/
theorem claim_C10 (tok : List Char → Encoding) (ml : Nat) (q c a : List Char)
    (s : Int) (aa : List (List Char)) (r : SquadExample)
    (hs : 0 ≤ s)
    (off0 : Nat × Nat) (rest : List (Nat × Nat))
    (hoffs : (tok (normalizeWs c)).offsets = off0 :: rest)
    (hfirst : overlapsAnswer s (s + ((normalizeWs a).length : Int)) off0 = false)
    (h : SquadExample.preprocess tok ml (SquadExample.init q c s a aa) = some r) :
    r = { SquadExample.init q c s a aa with skip := true } := by
  rcases preprocess_shape tok ml q c a s aa r h with
    ⟨_, h2⟩ | h2 | ⟨m, hm, hblen, _, ⟨off1, rest1, hoffs1, hov⟩, _, _⟩
  · rw [h2] at hoffs
    exact List.noConfusion hoffs
  · exact h2
  · exfalso
    rw [hoffs] at hoffs1
    obtain ⟨heq1, heq2⟩ := List.cons.inj hoffs1
    obtain ⟨m2, hm2, hlen2, hget2⟩ := markAnswerChars_spec (normalizeWs c).length s
      (s + ((normalizeWs a).length : Int)) hs (by omega)
    rw [hm] at hm2
    have hmeq : m = m2 := Option.some.inj hm2
    subst hmeq
    rw [← heq1] at hov
    obtain ⟨s0, t0⟩ := off0
    have hov2 := (slice_test_iff m (normalizeWs c).length s
      (s + ((normalizeWs a).length : Int)) hlen2 hget2 hs (by omega) s0 t0).mp hov
    rw [hfirst] at hov2
    exact Bool.noConfusion hov2

/-- Tokenizer for the C10 witness run: BERT-style leading `(0, 0)` token, with
a later token that does overlap the answer. -/
def witC10tok : List Char → Encoding := fun str =>
  if str = ['e', 'f', 'g'] then Encoding.mk [11, 12, 13] [(0, 0), (0, 3), (0, 0)]
  else Encoding.mk [9, 8] [(0, 1)]

/-- Example for the C10 witness run. -/
def witC10ex : SquadExample := SquadExample.init ['n'] ['e', 'f', 'g'] 1 ['f'] []

/-- Witness for claim C10: the second token (0, 3) overlaps the answer interval
[1, 2), yet the Example is skipped because the first token (0, 0) does not. -/
theorem claim_C10_witness :
    overlapsAnswer 1 (1 + ((normalizeWs ['f']).length : Int)) (0, 0) = false ∧
    overlapsAnswer 1 (1 + ((normalizeWs ['f']).length : Int)) (0, 3) = true ∧
    ({ witC10ex with skip := true } : SquadExample) = { witC10ex with skip := true } :=
  ⟨by decide, by decide,
    claim_C10 witC10tok 8 ['n'] ['e', 'f', 'g'] ['f'] 1 [] { witC10ex with skip := true }
      (by decide) (0, 0) [(0, 3), (0, 0)] (by decide) (by decide) (by decide)⟩
